import Mathlib

/-!
Shallow embedding of the UXMPC dynamic service engine: parameter resolution,
execution-context construction, handler invocation and the mount/unmount
router, as implemented in `backend/app/core/dynamic_router.py`,
`backend/app/core/mcp_manager.py`, `backend/app/core/dynamic_tool_builder.py`,
`backend/app/core/dynamic_prompt_builder.py` and
`backend/app/services/agent_executor.py`.
-/

namespace UXMPC

/-- JSON values as produced by `request.json()` / returned by handlers.
Objects are ordered field lists, mirroring Python dicts; numbers are
modelled as integers (no numeric claim is at stake). -/
inductive Json where
  | null : Json
  | bool (b : Bool) : Json
  | num (n : Int) : Json
  | str (s : String) : Json
  | arr (elems : List Json) : Json
  | obj (fields : List (String × Json)) : Json

/-- Python dict assignment `d[k] = v` on an association list with unique keys:
an existing binding is replaced in place, a new key is appended at the end. -/
def dictSet {α : Type} (m : List (String × α)) (k : String) (v : α) :
    List (String × α) :=
  match m with
  | [] => [(k, v)]
  | (k0, v0) :: rest => if k0 = k then (k, v) :: rest else (k0, v0) :: dictSet rest k v

/-- Python dict read `d.get(k)` on an association list. -/
def dictLookup {α : Type} (k : String) : List (String × α) → Option α
  | [] => none
  | (k0, v0) :: rest => if k0 = k then some v0 else dictLookup k rest

/-- The value of the last pair with key `k` in a list that may repeat keys:
what a sequence of dict writes leaves behind for `k`. -/
def lastAssoc {α : Type} (k : String) : List (String × α) → Option α
  | [] => none
  | (k0, v0) :: rest =>
    match lastAssoc k rest with
    | some v => some v
    | none => if k0 = k then some v0 else none

/-- First-some choice on options. -/
def optOr {α : Type} : Option α → Option α → Option α
  | some a, _ => some a
  | none, b => b

/-- A regex word character, the `\w` class over ASCII route templates. -/
def isWordChar (c : Char) : Bool := c.isAlphanum || c = '_'

/-- Left-to-right scan for the non-overlapping matches of the pattern
`\x7b(\w+)\x7d` (an opening brace, one or more word characters, a closing
brace), as `re.findall` performs it in `create_handler` (dynamic_router.py
lines 28-32). The second argument is `none` outside a candidate match and
`some acc` after an opening brace with `acc` the word characters read so
far. -/
def scanPlaceholders : List Char → Option (List Char) → List String
  | [], _ => []
  | c :: rest, none =>
    if c = '{' then scanPlaceholders rest (some [])
    else scanPlaceholders rest none
  | c :: rest, some acc =>
    if isWordChar c then scanPlaceholders rest (some (acc ++ [c]))
    else if c = '}' then
      (if acc.isEmpty then [] else [String.mk acc]) ++ scanPlaceholders rest none
    else if c = '{' then scanPlaceholders rest (some [])
    else scanPlaceholders rest none

/-- Path-parameter names of a route template: `pattern.findall(service.route)`
for the pattern above. -/
def pathParamNames (route : String) : List String :=
  scanPlaceholders route.data none

/-- Parameter resolution of one HTTP invocation, `create_handler`
(dynamic_router.py lines 59-73): `params` starts as the dict of path
placeholders (the URL always supplies them as strings), every query
parameter is then written over it, and for POST/PUT/PATCH the parsed JSON
body is merged last when it is a dict; a body that failed to parse
(`body = none`) or is not a dict is passed over silently. -/
def resolveParams (method : String) (route : String)
    (pathValues : String → String) (query : List (String × String))
    (body : Option Json) : List (String × Json) :=
  let pathInit := (pathParamNames route).foldl
    (fun m p => dictSet m p (Json.str (pathValues p))) []
  let withQuery := query.foldl (fun m kv => dictSet m kv.1 (Json.str kv.2)) pathInit
  if method = "POST" ∨ method = "PUT" ∨ method = "PATCH" then
    match body with
    | some (Json.obj fields) => fields.foldl (fun m kv => dictSet m kv.1 kv.2) withQuery
    | _ => withQuery
  else withQuery

/-- Modelled from the spec: parameter resolution as §4.3 step 1 words it —
"path placeholders ... ∪ query parameters (GET) or JSON body fields
(POST/PUT/PATCH)", i.e. with the query string read only for GET. Stated
only to be compared with `resolveParams`, the source's resolution. -/
def resolveParamsSpecDescribed (method : String) (route : String)
    (pathValues : String → String) (query : List (String × String))
    (body : Option Json) : List (String × Json) :=
  let pathInit := (pathParamNames route).foldl
    (fun m p => dictSet m p (Json.str (pathValues p))) []
  if method = "GET" then
    query.foldl (fun m kv => dictSet m kv.1 (Json.str kv.2)) pathInit
  else if method = "POST" ∨ method = "PUT" ∨ method = "PATCH" then
    match body with
    | some (Json.obj fields) => fields.foldl (fun m kv => dictSet m kv.1 kv.2) pathInit
    | _ => pathInit
  else pathInit

/-- Which value the body contributes for the name `k`: the last field named
`k` of a dict body, and only for the body-reading methods. -/
def bodyBinds (method : String) (body : Option Json) (k : String) : Option Json :=
  if method = "POST" ∨ method = "PUT" ∨ method = "PATCH" then
    match body with
    | some (Json.obj fields) => lastAssoc k fields
    | _ => none
  else none

/-- The generated handler's parameter list with its type annotations,
`create_handler` lines 34-37: `request: Request` followed by one `p: str`
parameter per path placeholder, whatever types the service declares. -/
def handlerParamList (route : String) : List (String × String) :=
  ("request", "Request") :: (pathParamNames route).map (fun p => (p, "str"))

/-- Whether a JSON value is an object, `isinstance(body, dict)`. -/
def Json.isObj : Json → Bool
  | Json.obj _ => true
  | _ => false

/-- What executing `exec(service.code, global_vars, local_vars)` leaves
behind, abstracted: `defines` is the set of names the code binds in the
local namespace, and `run` is the extensional behaviour of the value bound
to `handler` (when there is one) on a resolved parameter mapping —
`Except.error msg` standing for a raised exception with message `msg`.
Python source text itself cannot be embedded; every claim settled against
this type quantifies over all possible outcomes of the execution step. -/
structure ServiceCode where
  defines : List String
  run : List (String × Json) → Except String Json

/-- An HTTP-level outcome of the dynamic handler: a JSONResponse with its
extra headers, or a raised HTTPException (status, detail) which FastAPI's
default handler turns into a bare JSON error body with no extra headers. -/
inductive HttpResponse where
  | json (body : Json) (headers : List (String × String)) : HttpResponse
  | error (status : Nat) (detail : String) : HttpResponse

/-- The dynamic HTTP handler after parameter resolution and dependency
loading, `create_handler` lines 193-222: require a local `handler`, call
it, wrap a non-dict non-list result as {"result": value}, attach the
X-Execution-ID header on the success responses, and turn exceptions into
HTTPException(500, ...). -/
def httpExecuteCode (code : ServiceCode) (params : List (String × Json))
    (executionId : String) : HttpResponse :=
  if code.defines.contains "handler" then
    match code.run params with
    | Except.ok result =>
      match result with
      | Json.obj fields =>
        HttpResponse.json (Json.obj fields) [("X-Execution-ID", executionId)]
      | Json.arr elems =>
        HttpResponse.json (Json.arr elems) [("X-Execution-ID", executionId)]
      | other =>
        HttpResponse.json (Json.obj [("result", other)]) [("X-Execution-ID", executionId)]
    | Except.error msg => HttpResponse.error 500 ("Service execution error: " ++ msg)
  else HttpResponse.error 500 "Service code must define a 'handler' function"

/-- The MCP execution path, `MCPManager._execute_service` lines 186-204:
the same entry-point convention, but errors come back as {"error": ...}
objects instead of raised HTTPExceptions. -/
def mcpExecuteCode (code : ServiceCode) (params : List (String × Json)) : Json :=
  if code.defines.contains "handler" then
    match code.run params with
    | Except.ok result => result
    | Except.error msg =>
      Json.obj [("error", Json.str ("Service execution error: " ++ msg))]
  else Json.obj [("error", Json.str "Service code must define a 'handler' function")]

/-- The headers an HTTP client sees: a JSONResponse carries the headers it
was built with; a raised HTTPException is rendered by the framework's
default handler, which attaches none (the `raise HTTPException` sites in
create_handler pass no headers argument). -/
def responseHeaders : HttpResponse → List (String × String)
  | HttpResponse.json _ hs => hs
  | HttpResponse.error _ _ => []

/-- The response names the invocation's execution id in its
X-Execution-ID header. -/
def carriesExecutionId (r : HttpResponse) (eid : String) : Prop :=
  dictLookup "X-Execution-ID" (responseHeaders r) = some eid

/-- The static distribution-name → import-name table, `create_handler`
lines 120-145. -/
def packageMappings : List (String × String) :=
  [("beautifulsoup4", "bs4"), ("pillow", "PIL"), ("scikit-learn", "sklearn"),
   ("opencv-python", "cv2"), ("pyyaml", "yaml"), ("python-dateutil", "dateutil"),
   ("mysqlclient", "MySQLdb"), ("psycopg2-binary", "psycopg2"),
   ("python-dotenv", "dotenv"), ("lxml", "lxml"), ("numpy", "numpy"),
   ("pandas", "pandas"), ("matplotlib", "matplotlib"), ("seaborn", "seaborn"),
   ("scipy", "scipy"), ("nltk", "nltk"), ("torch", "torch"),
   ("tensorflow", "tensorflow"), ("requests", "requests"), ("httpx", "httpx"),
   ("aiohttp", "aiohttp"), ("flask", "flask"), ("fastapi", "fastapi"),
   ("pydantic", "pydantic")]

/-- `package_mappings.get(dep, dep)`: the import name of a declared
dependency. -/
def importNameOf (dep : String) : String :=
  match dictLookup dep packageMappings with
  | some n => n
  | none => dep

/-- The HTTP path's dependency loop, `create_handler` lines 147-191: map the
declared name through the table, import the module (`avail` is the host
interpreter's importable-module map, a module identified by an opaque
string), bind it under the import name and — when different — also under
the declared name; an unimportable dependency aborts the whole loop with
that dependency's name. The extra convenience bindings (BeautifulSoup,
Image, urllib submodules) add further names and are not modelled; they do
not affect the two bindings at issue. -/
def httpImportDeps (avail : String → Option String) :
    List String → List (String × String) → Except String (List (String × String))
  | [], g => Except.ok g
  | dep :: rest, g =>
    match avail (importNameOf dep) with
    | some m =>
      httpImportDeps avail rest
        (if dep = importNameOf dep then dictSet g (importNameOf dep) m
         else dictSet (dictSet g (importNameOf dep) m) dep m)
    | none => Except.error dep

/-- The MCP path's dependency loop, `MCPManager._execute_service` lines
166-175: no mapping table — each declared name is imported as written and
bound only under itself. -/
def mcpImportDeps (avail : String → Option String) :
    List String → List (String × String) → Except String (List (String × String))
  | [], g => Except.ok g
  | dep :: rest, g =>
    match avail dep with
    | some m => mcpImportDeps avail rest (dictSet g dep m)
    | none => Except.error dep

/-- A host environment where the beautifulsoup4 distribution is installed:
the importable module is `bs4`; there is no module named `beautifulsoup4`. -/
def bs4OnlyEnv : String → Option String :=
  fun n => if n = "bs4" then some "module:bs4" else none

/-- Invariant of the dependency-loading loop: every module bound in the
execution globals is the one the host environment resolves for that
name's import name. -/
def envInv (avail : String → Option String) (g : List (String × String)) : Prop :=
  ∀ k v, dictLookup k g = some v → avail (importNameOf k) = some v

/-- One LLM turn as the agent loop reads it: `message["content"]` (absent
for pure tool-call turns) and `message["tool_calls"]` as (name, arguments)
pairs. -/
structure LlmTurn where
  content : Option String
  toolCalls : List (String × String)

/-- What `_call_llm_with_tools` returns, projected on the fields the claims
speak about: the output value, the number of LLM turns performed, how many
tool calls were accumulated, and whether the max-iterations warning was
logged (lines 427 and 447). -/
structure AgentResult where
  output : Option String
  iterations : Nat
  toolCallCount : Nat
  warnedMaxIterations : Bool
deriving DecidableEq

/-- The loop body of `_call_llm_with_tools`, lines 351-453, with
`remaining = max_iterations - iterations` as the structural fuel of the
`while iterations < max_iterations` loop. `llm n` is the model's response
on the n-th turn. With fuel 0 the loop guard fails and the trailing
"Max iterations reached without completion" return (lines 446-453) runs;
otherwise one turn happens: no tool calls means the content is the final
output; tool calls are executed, and the loop continues only when another
iteration is allowed, else the code logs the warning and falls through to
return the current message's content (lines 422-444). -/
def agentLoopGo (llm : Nat → LlmTurn) : Nat → Nat → Nat → AgentResult
  | 0, iterations, tc =>
    { output := some "Max iterations reached without completion",
      iterations := iterations, toolCallCount := tc, warnedMaxIterations := true }
  | remaining + 1, iterations, tc =>
    let msg := llm (iterations + 1)
    if msg.toolCalls.isEmpty then
      { output := msg.content, iterations := iterations + 1,
        toolCallCount := tc, warnedMaxIterations := false }
    else
      let tc2 := tc + msg.toolCalls.length
      match remaining with
      | 0 =>
        { output := msg.content, iterations := iterations + 1,
          toolCallCount := tc2, warnedMaxIterations := true }
      | r + 1 => agentLoopGo llm (r + 1) (iterations + 1) tc2

/-- `_call_llm_with_tools` from its entry: iterations and the tool-call
history start at zero. -/
def agentLoop (llm : Nat → LlmTurn) (maxIterations : Nat) : AgentResult :=
  agentLoopGo llm maxIterations 0 0

/-- A mock model that requests one tool call on every turn. -/
def alwaysToolLlm : Nat → LlmTurn :=
  fun _ => { content := some "thinking", toolCalls := [("search", "query=x")] }

/-- A live FastAPI route entry: its path and its methods. -/
structure Route where
  path : String
  methods : List String
deriving DecidableEq

/-- `unmount_service` lines 280-284: keep every route except those whose
path equals the service's route and whose method set contains the
service's method. -/
def removeRoutes (routes : List Route) (path method : String) : List Route :=
  routes.filter (fun r => !(r.path == path && r.methods.contains method))

/-- The MCPManager's three registration collections (`self.tools`,
`self.resources`, `self.prompts`), each a dict keyed by service name —
modelled by their key lists. -/
structure McpRegistry where
  tools : List String
  resources : List String
  prompts : List String
deriving DecidableEq

/-- Python dict key insertion `d[name] = value` seen on the key list:
replacing an existing key leaves the key list unchanged. -/
def dictAddName (l : List String) (name : String) : List String :=
  if l.contains name then l else l ++ [name]

/-- `MCPManager.register_service` lines 25-39 with the collection updates of
`_register_tool` / `_register_resource` / `_register_prompt`. -/
def registerService (reg : McpRegistry) (name stype : String) :
    Except String McpRegistry :=
  if stype = "tool" then
    Except.ok { reg with tools := dictAddName reg.tools name }
  else if stype = "resource" then
    Except.ok { reg with resources := dictAddName reg.resources name }
  else if stype = "prompt" then
    Except.ok { reg with prompts := dictAddName reg.prompts name }
  else Except.error ("Unknown service type: " ++ stype)

/-- `MCPManager.unregister_service` lines 131-153, kept faithful to the
source's control flow: every removal — from FastMCP's internal dicts and
from the manager's collections — sits inside `if service_name in
self.tools`, and within it the `elif` arms for resources and prompts are
unreachable; so only a name registered as a tool is ever removed. -/
def unregisterService (reg : McpRegistry) (name : String) : McpRegistry :=
  if reg.tools.contains name then
    { reg with tools := reg.tools.erase name }
  else reg

/-- The service fields the mount/unmount router reads. -/
structure Service where
  name : String
  service_type : String
  route : String
  method : String

/-- The router's shared mutable state: the live HTTP route table and the
MCP registry. -/
structure RouterState where
  routes : List Route
  registry : McpRegistry

/-- `unmount_service` (dynamic_router.py lines 276-293): filter the route
table, then `mcp_manager.unregister_service(service.name)`. -/
def unmountService (st : RouterState) (s : Service) : RouterState :=
  { routes := removeRoutes st.routes s.route s.method,
    registry := unregisterService st.registry s.name }

/-- What the registered MCP resource handler returns,
`MCPManager._register_resource` lines 74-79: `result["content"]` when the
service result is a dict carrying "content", and otherwise the fallback
`str(result)` — the value's string rendering, returned as a success. -/
inductive ResourceOutcome where
  | contentValue (v : Json) : ResourceOutcome
  | stringified (v : Json) : ResourceOutcome

/-- The normalization the resource handler applies to a service result. -/
def resourceHandlerNormalize (result : Json) : ResourceOutcome :=
  match result with
  | Json.obj fields =>
    match dictLookup "content" fields with
    | some v => ResourceOutcome.contentValue v
    | none => ResourceOutcome.stringified (Json.obj fields)
  | other => ResourceOutcome.stringified other

/-- Modelled from the spec: §7's ProtocolMismatchError — a resource result
without `content` must surface as an error. Stated only to be compared
with `resourceHandlerNormalize`, the source's normalization. -/
def resourceNormalizeSpecDescribed (result : Json) : Except String Json :=
  match result with
  | Json.obj fields =>
    match dictLookup "content" fields with
    | some v => Except.ok v
    | none => Except.error "ProtocolMismatchError"
  | _ => Except.error "ProtocolMismatchError"

/-- A declared service parameter (app/models/service.py ServiceParam). -/
structure ServiceParam where
  name : String
  type : String
  required : Bool
deriving DecidableEq

/-- A synthesized `inspect.Parameter`: its name, its annotation rendered as
text, and whether it carries the `default=None`. -/
structure PyParam where
  name : String
  pyType : String
  optionalDefault : Bool
deriving DecidableEq

/-- The tool builder's type-mapping table (dynamic_tool_builder.py lines
22-29), `.get(param.type, str)`. -/
def pythonTypeOf (t : String) : String :=
  if t = "string" then "str"
  else if t = "number" then "float"
  else if t = "integer" then "int"
  else if t = "boolean" then "bool"
  else if t = "array" then "list"
  else if t = "object" then "dict"
  else "str"

/-- One parameter as `create_dynamic_tool_function` builds it (lines 32-46):
required parameters keep the bare type, optional ones are wrapped Optional
with a None default. -/
def toolParamOf (p : ServiceParam) : PyParam :=
  if p.required then
    { name := p.name, pyType := pythonTypeOf p.type, optionalDefault := false }
  else
    { name := p.name, pyType := "Optional[" ++ pythonTypeOf p.type ++ "]",
      optionalDefault := true }

/-- `params_dict` of create_dynamic_tool_function: a dict keyed by parameter
name, so a repeated name overwrites the earlier entry in place. -/
def toolParamsDict (ps : List ServiceParam) : List (String × PyParam) :=
  ps.foldl (fun m p => dictSet m p.name (toolParamOf p)) []

/-- The validation `inspect.Signature.__init__` (CPython inspect.py) runs
over the parameter list, scanning it in order. Every parameter both
builders synthesize is POSITIONAL_OR_KEYWORD, so per parameter the scan
first raises ValueError("non-default argument follows default argument")
when the parameter has no default but an earlier one had, and then raises
the duplicate-name ValueError when the name was already seen (the real
message suffixes the repr of the name; the name is dropped here).
`seenNames` and `seenDefault` carry the scan state. -/
def signatureScan : List PyParam → List String → Bool → Except String Unit
  | [], _, _ => Except.ok ()
  | p :: rest, seenNames, seenDefault =>
    if !p.optionalDefault && seenDefault then
      Except.error "non-default argument follows default argument"
    else if seenNames.contains p.name then
      Except.error "duplicate parameter name"
    else signatureScan rest (seenNames ++ [p.name]) (seenDefault || p.optionalDefault)

/-- `inspect.Signature(parameters)`: the parameter list when the scan
accepts it, the ValueError's message otherwise. -/
def mkSignature (ps : List PyParam) : Except String (List PyParam) :=
  match signatureScan ps [] false with
  | Except.ok _ => Except.ok ps
  | Except.error msg => Except.error msg

/-- `create_dynamic_tool_function`'s synthesized signature:
`inspect.Signature(parameters=list(params_dict.values()))` (line 54). -/
def dynamicToolSignature (ps : List ServiceParam) : Except String (List PyParam) :=
  mkSignature ((toolParamsDict ps).map Prod.snd)

/-- The prompt builder's type-mapping table (dynamic_prompt_builder.py lines
16-21): no array/object entries, `.get` falls back to str. -/
def promptTypeOf (t : String) : String :=
  if t = "string" then "str"
  else if t = "number" then "float"
  else if t = "integer" then "int"
  else if t = "boolean" then "bool"
  else "str"

/-- One parameter as `create_dynamic_prompt_function` builds it (lines
25-38): the annotation is the bare type either way; optional parameters get
the None default. -/
def promptParamOf (p : ServiceParam) : PyParam :=
  { name := p.name, pyType := promptTypeOf p.type,
    optionalDefault := !p.required }

/-- `create_dynamic_prompt_function`'s synthesized signature: the params are
collected in a plain list (not a dict), so duplicates reach
`inspect.Signature(params)` (line 46). -/
def dynamicPromptSignature (ps : List ServiceParam) : Except String (List PyParam) :=
  mkSignature (ps.map promptParamOf)

theorem dictLookup_dictSet {α : Type} (m : List (String × α)) (k0 k : String) (v : α) :
    dictLookup k (dictSet m k0 v) = if k0 = k then some v else dictLookup k m := by
  induction m with
  | nil => by_cases h : k0 = k <;> simp [dictSet, dictLookup, h]
  | cons kv rest ih =>
    obtain ⟨k1, v1⟩ := kv
    by_cases h1 : k1 = k0
    · by_cases h2 : k0 = k <;> simp [dictSet, dictLookup, h1, h2]
    · by_cases h2 : k1 = k
      · have h3 : ¬ k0 = k := fun hc => h1 (h2.trans hc.symm)
        have h4 : ¬ k = k0 := fun hc => h3 hc.symm
        simp [dictSet, dictLookup, h1, h2, h3, h4]
      · simp [dictSet, dictLookup, h1, h2, ih]

theorem dictLookup_foldl_dictSet {α : Type} (g : α → Json)
    (l : List (String × α)) (m : List (String × Json)) (k : String) :
    dictLookup k (l.foldl (fun m kv => dictSet m kv.1 (g kv.2)) m)
      = optOr ((lastAssoc k l).map g) (dictLookup k m) := by
  induction l generalizing m with
  | nil => simp [lastAssoc, optOr]
  | cons kv rest ih =>
    obtain ⟨k1, v1⟩ := kv
    simp only [List.foldl, lastAssoc, ih, dictLookup_dictSet]
    cases h : lastAssoc k rest with
    | some v => simp [optOr]
    | none => by_cases h1 : k1 = k <;> simp [optOr, h1]

theorem dictLookup_foldl_path (pv : String → String) (names : List String)
    (m : List (String × Json)) (k : String) :
    dictLookup k (names.foldl (fun m p => dictSet m p (Json.str (pv p))) m)
      = if names.contains k then some (Json.str (pv k)) else dictLookup k m := by
  induction names generalizing m with
  | nil => simp
  | cons p rest ih =>
    simp only [List.foldl, ih, dictLookup_dictSet]
    by_cases h1 : k ∈ rest
    · simp [h1]
    · by_cases h2 : p = k
      · subst h2; simp [h1]
      · have h2b : ¬ k = p := fun hc => h2 hc.symm
        simp [h1, h2, h2b]

/-- The value `resolveParams` leaves for the name `k`: the body wins (for the
body-reading methods), then the query string, then the path placeholder —
path is bound first and each later source overwrites, last write wins. -/
theorem resolveParams_lookup (method route : String) (pv : String → String)
    (query : List (String × String)) (body : Option Json) (k : String) :
    dictLookup k (resolveParams method route pv query body)
      = optOr (bodyBinds method body k)
          (optOr ((lastAssoc k query).map Json.str)
            (if (pathParamNames route).contains k then some (Json.str (pv k))
             else none)) := by
  unfold resolveParams bodyBinds
  have hpath := dictLookup_foldl_path pv (pathParamNames route) [] k
  have hq := dictLookup_foldl_dictSet (fun s => Json.str s) query
    ((pathParamNames route).foldl (fun m p => dictSet m p (Json.str (pv p))) []) k
  split
  · cases body with
    | none => simp only [hq, hpath, dictLookup, optOr]
    | some j =>
      cases j with
      | obj fields =>
        have hb := dictLookup_foldl_dictSet (fun v => v) fields
          (query.foldl (fun m kv => dictSet m kv.1 (Json.str kv.2))
            ((pathParamNames route).foldl (fun m p => dictSet m p (Json.str (pv p))) [])) k
        simp only [Option.map_id] at hb
        simp only [hb, hq, hpath, dictLookup, optOr, Option.map_id, id]
        cases lastAssoc k fields <;> simp [optOr]
      | null => simp only [hq, hpath, dictLookup, optOr]
      | bool b => simp only [hq, hpath, dictLookup, optOr]
      | num n => simp only [hq, hpath, dictLookup, optOr]
      | str s => simp only [hq, hpath, dictLookup, optOr]
      | arr elems => simp only [hq, hpath, dictLookup, optOr]
  · simp only [hq, hpath, dictLookup, optOr]

/-- C1 (amended): the resolved mapping binds path placeholders first, then
the query parameters — for every method, not only GET — then the dict body
fields for POST/PUT/PATCH, each later source overwriting (last write wins);
and concretely, a GET on "/greet/{name}" with path name=Alice and query
loud=true resolves to the mapping name ↦ "Alice", loud ↦ "true". -/
theorem c1_param_resolution_order :
    (∀ (method route : String) (pv : String → String)
        (query : List (String × String)) (body : Option Json) (k : String),
        dictLookup k (resolveParams method route pv query body)
          = optOr (bodyBinds method body k)
              (optOr ((lastAssoc k query).map Json.str)
                (if (pathParamNames route).contains k then some (Json.str (pv k))
                 else none)))
    ∧ resolveParams "GET" "/greet/{name}"
        (fun p => if p = "name" then "Alice" else "") [("loud", "true")] none
      = [("name", Json.str "Alice"), ("loud", Json.str "true")] :=
  ⟨fun method route pv query body k =>
    resolveParams_lookup method route pv query body k, rfl⟩

/-- C1 counterexample: a POST invocation with a query parameter. The code's
resolution (resolveParams) reads the query string for every method, while
the claimed resolution (query for GET *or* body for POST/PUT/PATCH,
resolveParamsSpecDescribed) would drop it: the two mappings differ. -/
theorem c1_post_reads_query_counterexample :
    resolveParams "POST" "/item" (fun _ => "") [("debug", "1")]
      (some (Json.obj [])) = [("debug", Json.str "1")]
    ∧ resolveParamsSpecDescribed "POST" "/item" (fun _ => "") [("debug", "1")]
        (some (Json.obj [])) = ([] : List (String × Json))
    ∧ ([("debug", Json.str "1")] : List (String × Json)) ≠ [] :=
  ⟨rfl, rfl, by simp⟩

/-- C2: when the executed service code leaves no `handler` in the local
namespace, both execution paths return their structured error naming the
missing handler — an HTTPException(500) on the HTTP path, an {"error": ...}
object on the MCP path — rather than crashing or silently doing nothing. -/
theorem c2_missing_handler_reported (code : ServiceCode)
    (params : List (String × Json)) (eid : String)
    (h : code.defines.contains "handler" = false) :
    httpExecuteCode code params eid
      = HttpResponse.error 500 "Service code must define a 'handler' function"
    ∧ mcpExecuteCode code params
      = Json.obj [("error", Json.str "Service code must define a 'handler' function")] := by
  unfold httpExecuteCode mcpExecuteCode
  have h2 : ¬ "handler" ∈ code.defines := by simpa using h
  simp [h2]

/-- C2 witness: a concrete execution outcome defining only `helper`. -/
theorem c2_missing_handler_witness :
    httpExecuteCode { defines := ["helper"], run := fun _ => Except.ok Json.null } [] "abc"
      = HttpResponse.error 500 "Service code must define a 'handler' function"
    ∧ mcpExecuteCode { defines := ["helper"], run := fun _ => Except.ok Json.null } []
      = Json.obj [("error", Json.str "Service code must define a 'handler' function")] :=
  c2_missing_handler_reported
    { defines := ["helper"], run := fun _ => Except.ok Json.null } [] "abc" (by decide)

/-- C4 (amended): a dynamic-handler response either is a raised
HTTPException — rendered by the framework's default handler with no
X-Execution-ID header — or is a success JSONResponse, and every success
response carries the execution id in its X-Execution-ID header. -/
theorem c4_only_success_carries_execution_id (code : ServiceCode)
    (params : List (String × Json)) (eid : String) :
    (∃ status detail,
        httpExecuteCode code params eid = HttpResponse.error status detail
        ∧ responseHeaders (httpExecuteCode code params eid) = [])
    ∨ carriesExecutionId (httpExecuteCode code params eid) eid := by
  unfold httpExecuteCode
  cases h : code.defines.contains "handler" with
  | false =>
    simp only [h, Bool.false_eq_true, if_false]
    exact Or.inl ⟨500, "Service code must define a 'handler' function", rfl, rfl⟩
  | true =>
    simp only [h, if_true]
    cases hrun : code.run params with
    | error msg => exact Or.inl ⟨500, "Service execution error: " ++ msg, rfl, rfl⟩
    | ok result =>
      cases result <;>
        simp [carriesExecutionId, responseHeaders, dictLookup]

/-- C4 counterexample: the missing-handler invocation returns a structured
error response, and that response does not carry the execution id — raised
HTTPExceptions are returned without the X-Execution-ID header. -/
theorem c4_error_lacks_execution_id_counterexample :
    httpExecuteCode { defines := ["helper"], run := fun _ => Except.ok Json.null }
        [] "abc-123"
      = HttpResponse.error 500 "Service code must define a 'handler' function"
    ∧ ¬ carriesExecutionId
        (httpExecuteCode { defines := ["helper"], run := fun _ => Except.ok Json.null }
          [] "abc-123") "abc-123" := by
  constructor
  · rfl
  · intro hc
    simp [carriesExecutionId, httpExecuteCode, responseHeaders, dictLookup] at hc

/-- C9: every non-request parameter of the generated handler's signature is
annotated `str`, whatever types the service declares; and every resolved
value the body did not supply — i.e. everything bound from a path
placeholder or a query parameter — is a JSON string. -/
theorem c9_path_query_values_are_strings :
    (∀ (route : String) (kv : String × String), kv ∈ handlerParamList route →
        kv.2 = "Request" ∨ kv.2 = "str")
    ∧ (∀ (method route : String) (pv : String → String)
        (query : List (String × String)) (body : Option Json) (k : String) (v : Json),
        bodyBinds method body k = none →
        dictLookup k (resolveParams method route pv query body) = some v →
        ∃ s, v = Json.str s) := by
  constructor
  · intro route kv hkv
    simp only [handlerParamList, List.mem_cons, List.mem_map] at hkv
    rcases hkv with h | ⟨p, _, h⟩
    · exact Or.inl (by rw [h])
    · exact Or.inr (by rw [← h])
  · intro method route pv query body k v hb hl
    rw [resolveParams_lookup, hb] at hl
    simp only [optOr] at hl
    cases hq : lastAssoc k query with
    | some s =>
      rw [hq] at hl
      simp [optOr] at hl
      exact ⟨s, hl.symm⟩
    | none =>
      rw [hq] at hl
      simp [optOr] at hl
      exact ⟨pv k, hl.2.symm⟩

/-- C9 witness: the GET query value loud="true" reaches the handler as the
string "true". -/
theorem c9_path_query_values_witness : ∃ s, Json.str "true" = Json.str s :=
  c9_path_query_values_are_strings.2 "GET" "/greet/{name}"
    (fun p => if p = "name" then "Alice" else "") [("loud", "true")] none
    "loud" (Json.str "true") rfl rfl

/-- C10: a body that failed to parse as JSON (`none`) or parsed to a
non-object is silently passed over — resolution succeeds and yields exactly
the path ∪ query mapping a body-less GET resolution would produce. -/
theorem c10_nonobject_body_ignored (method route : String)
    (pv : String → String) (query : List (String × String)) (body : Option Json)
    (h : body = none ∨ ∃ j, body = some j ∧ j.isObj = false) :
    resolveParams method route pv query body
      = resolveParams "GET" route pv query none := by
  unfold resolveParams
  have hGET : ¬ (("GET" : String) = "POST" ∨ ("GET" : String) = "PUT"
      ∨ ("GET" : String) = "PATCH") := by decide
  rcases h with rfl | ⟨j, rfl, hj⟩
  · by_cases hm : method = "POST" ∨ method = "PUT" ∨ method = "PATCH" <;>
      simp [hm, hGET]
  · by_cases hm : method = "POST" ∨ method = "PUT" ∨ method = "PATCH"
    · cases j <;> simp_all [Json.isObj, hm, hGET]
    · simp [hm, hGET]

/-- C10 witness: a POST whose body parsed to a JSON array resolves exactly
as the body-less resolution does. -/
theorem c10_nonobject_body_witness :
    resolveParams "POST" "/echo/{msg}" (fun _ => "hi") [("q", "1")]
      (some (Json.arr []))
      = resolveParams "GET" "/echo/{msg}" (fun _ => "hi") [("q", "1")] none :=
  c10_nonobject_body_ignored "POST" "/echo/{msg}" (fun _ => "hi") [("q", "1")]
    (some (Json.arr [])) (Or.inr ⟨Json.arr [], rfl, rfl⟩)

theorem dictLookup_mem {α : Type} {k : String} {v : α} :
    ∀ {m : List (String × α)}, dictLookup k m = some v → (k, v) ∈ m := by
  intro m
  induction m with
  | nil => intro h; exact absurd h (by simp [dictLookup])
  | cons kv rest ih =>
    intro h
    obtain ⟨k0, v0⟩ := kv
    by_cases h0 : k0 = k
    · subst h0
      simp [dictLookup] at h
      rw [h]
      exact List.mem_cons_self _ _
    · simp [dictLookup, h0] at h
      exact List.mem_cons_of_mem _ (ih h)

/-- Every import name the mapping table produces is a fixpoint of the
translation: the table is one step deep (an identity entry such as
lxml → lxml included). -/
theorem packageMappings_value_fixed {d v : String}
    (h : dictLookup d packageMappings = some v) : importNameOf v = v := by
  have hmem := dictLookup_mem h
  fin_cases hmem <;> rfl

theorem importNameOf_idem (d : String) :
    importNameOf (importNameOf d) = importNameOf d := by
  cases h : dictLookup d packageMappings with
  | none =>
    have h1 : importNameOf d = d := by unfold importNameOf; rw [h]
    rw [h1]
    exact h1
  | some v =>
    have h1 : importNameOf d = v := by unfold importNameOf; rw [h]
    rw [h1]
    exact packageMappings_value_fixed h

theorem envInv_nil (avail : String → Option String) : envInv avail [] := by
  intro k v h
  simp [dictLookup] at h

theorem envInv_dictSet {avail : String → Option String}
    {g : List (String × String)} {k v : String} (hg : envInv avail g)
    (hv : avail (importNameOf k) = some v) : envInv avail (dictSet g k v) := by
  intro k0 v0 h0
  rw [dictLookup_dictSet] at h0
  by_cases hk : k = k0
  · subst hk
    simp at h0
    rw [← h0]
    exact hv
  · rw [if_neg hk] at h0
    exact hg k0 v0 h0

theorem dictLookup_isSome_dictSet {α : Type} (m : List (String × α))
    (k0 k : String) (v : α) (h : (dictLookup k m).isSome) :
    (dictLookup k (dictSet m k0 v)).isSome := by
  rw [dictLookup_dictSet]
  by_cases hk : k0 = k <;> simp [hk, h]

theorem httpImportDeps_preserves (avail : String → Option String)
    (deps : List String) :
    ∀ (g g' : List (String × String)) (k : String),
      httpImportDeps avail deps g = Except.ok g' →
      (dictLookup k g).isSome → (dictLookup k g').isSome := by
  induction deps with
  | nil =>
    intro g g' k h hk
    simp [httpImportDeps] at h
    rw [← h]
    exact hk
  | cons dep rest ih =>
    intro g g' k h hk
    unfold httpImportDeps at h
    cases ha : avail (importNameOf dep) with
    | none => rw [ha] at h; exact absurd h (by simp)
    | some m =>
      rw [ha] at h
      apply ih _ _ _ h
      by_cases hd : dep = importNameOf dep
      · rw [if_pos hd]
        exact dictLookup_isSome_dictSet _ _ _ _ hk
      · rw [if_neg hd]
        exact dictLookup_isSome_dictSet _ _ _ _ (dictLookup_isSome_dictSet _ _ _ _ hk)

theorem httpImportDeps_envInv (avail : String → Option String)
    (deps : List String) :
    ∀ (g g' : List (String × String)),
      httpImportDeps avail deps g = Except.ok g' →
      envInv avail g → envInv avail g' := by
  induction deps with
  | nil =>
    intro g g' h hg
    simp [httpImportDeps] at h
    rw [← h]
    exact hg
  | cons dep rest ih =>
    intro g g' h hg
    unfold httpImportDeps at h
    cases ha : avail (importNameOf dep) with
    | none => rw [ha] at h; exact absurd h (by simp)
    | some m =>
      rw [ha] at h
      apply ih _ _ h
      have h1 : envInv avail (dictSet g (importNameOf dep) m) :=
        envInv_dictSet hg (by rw [importNameOf_idem]; exact ha)
      by_cases hd : dep = importNameOf dep
      · rw [if_pos hd]
        exact h1
      · rw [if_neg hd]
        exact envInv_dictSet h1 ha

theorem httpImportDeps_binds (avail : String → Option String)
    (deps : List String) :
    ∀ (g g' : List (String × String)) (dep : String),
      httpImportDeps avail deps g = Except.ok g' → dep ∈ deps →
      (dictLookup dep g').isSome ∧ (dictLookup (importNameOf dep) g').isSome := by
  induction deps with
  | nil =>
    intro g g' dep h hmem
    exact absurd hmem (List.not_mem_nil _)
  | cons d rest ih =>
    intro g g' dep h hmem
    unfold httpImportDeps at h
    cases ha : avail (importNameOf d) with
    | none => rw [ha] at h; exact absurd h (by simp)
    | some m =>
      rw [ha] at h
      rcases List.mem_cons.mp hmem with rfl | hmem2
      · constructor
        · apply httpImportDeps_preserves avail rest _ _ _ h
          by_cases hd : dep = importNameOf dep
          · rw [if_pos hd, dictLookup_dictSet, if_pos hd.symm]
            rfl
          · rw [if_neg hd, dictLookup_dictSet]
            simp
        · apply httpImportDeps_preserves avail rest _ _ _ h
          by_cases hd : dep = importNameOf dep
          · rw [if_pos hd, dictLookup_dictSet]
            simp
          · rw [if_neg hd, dictLookup_dictSet, if_neg hd, dictLookup_dictSet]
            simp
      · exact ih _ _ _ h hmem2

/-- C3 (amended): on the plain-HTTP invocation path the dependency loop does
bind every declared dependency's module under both the declared name and
the mapped import name, and that module is what the host resolves for
the import name. (The MCP execution path has no mapping table — see the
counterexample.) -/
theorem c3_http_binds_both_names (avail : String → Option String)
    (deps : List String) (g : List (String × String)) (dep : String)
    (hok : httpImportDeps avail deps [] = Except.ok g) (hdep : dep ∈ deps) :
    ∃ m, avail (importNameOf dep) = some m
      ∧ dictLookup dep g = some m
      ∧ dictLookup (importNameOf dep) g = some m := by
  obtain ⟨h1, h2⟩ := httpImportDeps_binds avail deps [] g dep hok hdep
  obtain ⟨v1, hv1⟩ := Option.isSome_iff_exists.mp h1
  obtain ⟨v2, hv2⟩ := Option.isSome_iff_exists.mp h2
  have hinv := httpImportDeps_envInv avail deps [] g hok (envInv_nil avail)
  have e1 := hinv dep v1 hv1
  have e2 := hinv (importNameOf dep) v2 hv2
  rw [importNameOf_idem] at e2
  refine ⟨v1, e1, hv1, ?_⟩
  rw [hv2]
  have h12 := e1.symm.trans e2
  injection h12 with hv
  rw [hv]

/-- C3 witness: with only `bs4` importable, declaring "beautifulsoup4" on
the HTTP path binds the bs4 module under both names. -/
theorem c3_http_binds_both_names_witness :
    ∃ m, bs4OnlyEnv (importNameOf "beautifulsoup4") = some m
      ∧ dictLookup "beautifulsoup4"
          [("bs4", "module:bs4"), ("beautifulsoup4", "module:bs4")] = some m
      ∧ dictLookup (importNameOf "beautifulsoup4")
          [("bs4", "module:bs4"), ("beautifulsoup4", "module:bs4")] = some m :=
  c3_http_binds_both_names bs4OnlyEnv ["beautifulsoup4"]
    [("bs4", "module:bs4"), ("beautifulsoup4", "module:bs4")]
    "beautifulsoup4" rfl (by simp)

/-- C3 counterexample: the same declared dependency, the same host
environment. The HTTP loop succeeds and aliases; the MCP execution path
(`_execute_service`) imports the declared name as written, finds no module
named beautifulsoup4, and aborts with a missing dependency — it never binds
anything, let alone under both names. -/
theorem c3_mcp_no_alias_counterexample :
    httpImportDeps bs4OnlyEnv ["beautifulsoup4"] []
      = Except.ok [("bs4", "module:bs4"), ("beautifulsoup4", "module:bs4")]
    ∧ mcpImportDeps bs4OnlyEnv ["beautifulsoup4"] []
      = Except.error "beautifulsoup4" :=
  ⟨rfl, rfl⟩

theorem agentLoopGo_succ (llm : Nat → LlmTurn) (n iterations tc : Nat) :
    agentLoopGo llm (n + 1) iterations tc =
      if (llm (iterations + 1)).toolCalls.isEmpty then
        { output := (llm (iterations + 1)).content, iterations := iterations + 1,
          toolCallCount := tc, warnedMaxIterations := false }
      else
        match n with
        | 0 =>
          { output := (llm (iterations + 1)).content, iterations := iterations + 1,
            toolCallCount := tc + (llm (iterations + 1)).toolCalls.length,
            warnedMaxIterations := true }
        | r + 1 =>
          agentLoopGo llm (r + 1) (iterations + 1)
            (tc + (llm (iterations + 1)).toolCalls.length) := by
  conv_lhs => rw [agentLoopGo]

theorem agentLoopGo_iterations_le (llm : Nat → LlmTurn) :
    ∀ (fuel iterations tc : Nat),
      (agentLoopGo llm fuel iterations tc).iterations ≤ iterations + fuel := by
  intro fuel
  induction fuel with
  | zero => intro iterations tc; simp [agentLoopGo]
  | succ n ih =>
    intro iterations tc
    rw [agentLoopGo_succ]
    cases h : (llm (iterations + 1)).toolCalls.isEmpty with
    | true => simp
    | false =>
      simp only [Bool.false_eq_true, if_false]
      cases n with
      | zero => simp
      | succ r =>
        have hr := ih (iterations + 1) (tc + (llm (iterations + 1)).toolCalls.length)
        simp only []
        omega

theorem agentLoopGo_always_tools (llm : Nat → LlmTurn)
    (htool : ∀ n, (llm n).toolCalls.isEmpty = false) :
    ∀ (fuel iterations tc : Nat), 0 < fuel →
      (agentLoopGo llm fuel iterations tc).iterations = iterations + fuel
      ∧ (agentLoopGo llm fuel iterations tc).warnedMaxIterations = true
      ∧ (agentLoopGo llm fuel iterations tc).output = (llm (iterations + fuel)).content := by
  intro fuel
  induction fuel with
  | zero => intro iterations tc h; exact absurd h (by omega)
  | succ n ih =>
    intro iterations tc _
    rw [agentLoopGo_succ, htool (iterations + 1)]
    simp only [Bool.false_eq_true, if_false]
    cases n with
    | zero => simp
    | succ r =>
      have hr := ih (iterations + 1) (tc + (llm (iterations + 1)).toolCalls.length)
        (by omega)
      have harith : iterations + 1 + (r + 1) = iterations + (r + 1 + 1) := by omega
      rw [harith] at hr
      exact hr

/-- C5 (amended): the loop performs at most max_iterations LLM turns; with
an always-tool-calling model and max_iterations = 3 it returns after
exactly 3 iterations, logging the max-iterations warning, and its output is
the third assistant message's content (not a dedicated "max iterations
reached" payload — see the counterexample). -/
theorem c5_loop_iteration_bound :
    (∀ (llm : Nat → LlmTurn) (maxIterations : Nat),
        (agentLoop llm maxIterations).iterations ≤ maxIterations)
    ∧ (∀ llm : Nat → LlmTurn, (∀ n, (llm n).toolCalls.isEmpty = false) →
        (agentLoop llm 3).iterations = 3
        ∧ (agentLoop llm 3).warnedMaxIterations = true
        ∧ (agentLoop llm 3).output = (llm 3).content) := by
  constructor
  · intro llm maxIterations
    have h := agentLoopGo_iterations_le llm maxIterations 0 0
    simpa [agentLoop] using h
  · intro llm htool
    have h := agentLoopGo_always_tools llm htool 3 0 0 (by omega)
    simpa [agentLoop] using h

/-- C5 witness: the concrete always-tool-calling mock model. -/
theorem c5_loop_iteration_bound_witness :
    (agentLoop alwaysToolLlm 3).iterations = 3
    ∧ (agentLoop alwaysToolLlm 3).warnedMaxIterations = true
    ∧ (agentLoop alwaysToolLlm 3).output = (alwaysToolLlm 3).content :=
  c5_loop_iteration_bound.2 alwaysToolLlm (fun _ => rfl)

/-- C5 counterexample: at max_iterations = 3 with a model that requests a
tool call on every turn, the loop does stop after 3 iterations, but the
returned output is the model's own message content; the dedicated
"Max iterations reached without completion" result is not what comes back
(the trailing return of lines 446-453 is reached only when max_iterations
is 0, since the in-loop exhaustion path falls through to return the
current message's content). -/
theorem c5_output_is_content_counterexample :
    agentLoop alwaysToolLlm 3
      = { output := some "thinking", iterations := 3, toolCallCount := 3,
          warnedMaxIterations := true }
    ∧ (some "thinking" : Option String)
        ≠ some "Max iterations reached without completion"
    ∧ agentLoop alwaysToolLlm 0
      = { output := some "Max iterations reached without completion",
          iterations := 0, toolCallCount := 0, warnedMaxIterations := true } := by
  refine ⟨by decide, by decide, by decide⟩

/-- C6: evaluation at the failing input. Mounting then unmounting a
resource service leaves its MCP registration in place: every removal in
`unregister_service` is guarded by `if service_name in self.tools`, so only
tool registrations are ever removed (the `elif` arms for resources and
prompts are unreachable) — against the routine's own docstring
"Unregister an MCP service (tool, resource, or prompt)". The route-table
half of unmounting, and the tool case, do behave as claimed, and
unregistering an unknown name is a no-op. -/
theorem c6_unregister_resource_noop :
    registerService { tools := [], resources := [], prompts := [] } "report" "resource"
      = Except.ok { tools := [], resources := ["report"], prompts := [] }
    ∧ unregisterService { tools := [], resources := ["report"], prompts := [] } "report"
      = { tools := [], resources := ["report"], prompts := [] }
    ∧ unregisterService { tools := ["conv"], resources := [], prompts := [] } "conv"
      = { tools := [], resources := [], prompts := [] }
    ∧ removeRoutes [⟨"/report", ["GET"]⟩, ⟨"/other", ["GET"]⟩] "/report" "GET"
      = [⟨"/other", ["GET"]⟩]
    ∧ unregisterService { tools := [], resources := [], prompts := [] } "ghost"
      = { tools := [], resources := [], prompts := [] } := by
  refine ⟨rfl, by decide, by decide, by decide, by decide⟩

/-- C7 (amended): a resource result that is not a dict carrying "content"
is not rejected: the handler falls back to `str(result)` and returns the
stringified value as a successful resource response. -/
theorem c7_missing_content_stringified (result : Json)
    (h : ∀ fields, result = Json.obj fields → dictLookup "content" fields = none) :
    resourceHandlerNormalize result = ResourceOutcome.stringified result := by
  cases result with
  | obj fields =>
    have h2 := h fields rfl
    simp [resourceHandlerNormalize, h2]
  | null => rfl
  | bool b => rfl
  | num n => rfl
  | str s => rfl
  | arr elems => rfl

/-- C7 witness: the concrete content-less mapping of the claim. -/
theorem c7_missing_content_stringified_witness :
    resourceHandlerNormalize (Json.obj [("mimeType", Json.str "text/plain")])
      = ResourceOutcome.stringified (Json.obj [("mimeType", Json.str "text/plain")]) :=
  c7_missing_content_stringified (Json.obj [("mimeType", Json.str "text/plain")])
    (fun fields hf => by cases hf; rfl)

/-- C7 counterexample: on {"mimeType": "text/plain"} the code returns the
stringified dict as a valid resource response, where the claimed behaviour
is a ProtocolMismatchError. -/
theorem c7_missing_content_accepted_counterexample :
    resourceHandlerNormalize (Json.obj [("mimeType", Json.str "text/plain")])
      = ResourceOutcome.stringified (Json.obj [("mimeType", Json.str "text/plain")])
    ∧ resourceNormalizeSpecDescribed (Json.obj [("mimeType", Json.str "text/plain")])
      = Except.error "ProtocolMismatchError" :=
  ⟨rfl, rfl⟩

theorem toolParamOf_name (p : ServiceParam) : (toolParamOf p).name = p.name := by
  unfold toolParamOf
  split <;> rfl

theorem dictSet_keys {α : Type} (m : List (String × α)) (k : String) (v : α) :
    (dictSet m k v).map Prod.fst
      = if k ∈ m.map Prod.fst then m.map Prod.fst
        else m.map Prod.fst ++ [k] := by
  induction m with
  | nil => simp [dictSet]
  | cons kv rest ih =>
    obtain ⟨k0, v0⟩ := kv
    by_cases h0 : k0 = k
    · subst h0
      simp [dictSet]
    · have hk : ¬ k = k0 := fun hc => h0 hc.symm
      simp only [dictSet, if_neg h0, List.map_cons, List.mem_cons, ih]
      by_cases h1 : k ∈ rest.map Prod.fst
      · simp [h1, hk]
      · simp [h1, hk]

theorem dictSet_keys_nodup {α : Type} (m : List (String × α)) (k : String) (v : α)
    (h : (m.map Prod.fst).Nodup) : ((dictSet m k v).map Prod.fst).Nodup := by
  rw [dictSet_keys]
  by_cases h1 : k ∈ m.map Prod.fst
  · simp [h1, h]
  · simp [h1, h, List.nodup_append]

theorem dictSet_namesMatch (m : List (String × PyParam)) (k : String) (v : PyParam)
    (hm : ∀ kv ∈ m, (kv.2).name = kv.1) (hv : v.name = k) :
    ∀ kv ∈ dictSet m k v, (kv.2).name = kv.1 := by
  induction m with
  | nil =>
    intro kv hkv
    simp [dictSet] at hkv
    subst hkv
    exact hv
  | cons kv0 rest ih =>
    obtain ⟨k0, v0⟩ := kv0
    intro kv hkv
    by_cases h0 : k0 = k
    · subst h0
      have hkv2 : kv = (k0, v) ∨ kv ∈ rest := by simpa [dictSet] using hkv
      rcases hkv2 with rfl | hkv2
      · exact hv
      · exact hm kv (List.mem_cons_of_mem _ hkv2)
    · have hkv2 : kv = (k0, v0) ∨ kv ∈ dictSet rest k v := by
        simpa [dictSet, h0] using hkv
      rcases hkv2 with rfl | hkv2
      · exact hm (k0, v0) (List.mem_cons_self _ _)
      · exact ih (fun kv h => hm kv (List.mem_cons_of_mem _ h)) kv hkv2

theorem values_names_eq_keys (m : List (String × PyParam))
    (hm : ∀ kv ∈ m, (kv.2).name = kv.1) :
    (m.map Prod.snd).map PyParam.name = m.map Prod.fst := by
  induction m with
  | nil => rfl
  | cons kv rest ih =>
    simp only [List.map_cons]
    rw [hm kv (List.mem_cons_self _ _),
      ih (fun kv h => hm kv (List.mem_cons_of_mem _ h))]

/-- With pairwise-distinct parameter names none of which was already
scanned, the duplicate-name branch of the scan cannot fire: the scan
accepts, or stops at the ordering error. -/
theorem signatureScan_nodup :
    ∀ (ps : List PyParam) (seen : List String) (seenDefault : Bool),
      (∀ n ∈ ps.map PyParam.name, n ∉ seen) → (ps.map PyParam.name).Nodup →
      signatureScan ps seen seenDefault = Except.ok ()
      ∨ signatureScan ps seen seenDefault
          = Except.error "non-default argument follows default argument" := by
  intro ps
  induction ps with
  | nil => intro seen seenDefault _ _; exact Or.inl rfl
  | cons p rest ih =>
    intro seen seenDefault hfresh hnd
    obtain ⟨hp, hndrest⟩ := List.nodup_cons.mp (by simpa only [List.map_cons] using hnd)
    by_cases h1 : (!p.optionalDefault && seenDefault) = true
    · right
      simp only [signatureScan, if_pos h1]
    · have hcont : ¬ (seen.contains p.name = true) := by
        simpa using hfresh p.name (by simp)
      simp only [signatureScan, if_neg h1, if_neg hcont]
      apply ih
      · intro n hn
        have hnseen : n ∉ seen := hfresh n (by simp [hn])
        have hnp : ¬ n = p.name := fun hc => hp (hc ▸ hn)
        simp [hnseen, hnp]
      · exact hndrest

/-- A scan that accepts saw pairwise-distinct names, none of them already
seen. -/
theorem signatureScan_ok_nodup :
    ∀ (ps : List PyParam) (seen : List String) (seenDefault : Bool),
      signatureScan ps seen seenDefault = Except.ok () →
      (ps.map PyParam.name).Nodup ∧ ∀ n ∈ ps.map PyParam.name, n ∉ seen := by
  intro ps
  induction ps with
  | nil => intro seen seenDefault _; simp
  | cons p rest ih =>
    intro seen seenDefault h
    by_cases h1 : (!p.optionalDefault && seenDefault) = true
    · rw [signatureScan, if_pos h1] at h
      exact absurd h (by simp)
    · by_cases h2 : seen.contains p.name = true
      · rw [signatureScan, if_neg h1, if_pos h2] at h
        exact absurd h (by simp)
      · rw [signatureScan, if_neg h1, if_neg h2] at h
        obtain ⟨hnd, hfresh⟩ := ih _ _ h
        constructor
        · simp only [List.map_cons, List.nodup_cons]
          refine ⟨fun hc => hfresh p.name hc ?_, hnd⟩
          simp
        · intro n hn
          rcases List.mem_cons.mp hn with rfl | hn2
          · simpa using h2
          · have := hfresh n hn2
            simp only [List.mem_append] at this
            exact fun hc => this (Or.inl hc)

theorem toolParamsDict_good (ps : List ServiceParam) :
    ∀ m : List (String × PyParam),
      (∀ kv ∈ m, (kv.2).name = kv.1) → (m.map Prod.fst).Nodup →
      (∀ kv ∈ ps.foldl (fun m p => dictSet m p.name (toolParamOf p)) m,
        (kv.2).name = kv.1)
      ∧ ((ps.foldl (fun m p => dictSet m p.name (toolParamOf p)) m).map
          Prod.fst).Nodup := by
  induction ps with
  | nil => intro m h1 h2; exact ⟨h1, h2⟩
  | cons p rest ih =>
    intro m h1 h2
    simp only [List.foldl]
    exact ih _ (dictSet_namesMatch m p.name (toolParamOf p) h1 (toolParamOf_name p))
      (dictSet_keys_nodup m p.name _ h2)

/-- C8 (amended): the two signature synthesizers disagree on duplicates.
The tool builder collects parameters in a dict keyed by name, so a repeated
name is silently deduplicated before the signature constructor runs and the
duplicate-name rejection can never fire there — the constructed signature
either succeeds or fails only with the constructor's ordering error (a
required parameter after an optional one). The prompt builder collects
parameters in a plain list, so a list with a repeated name always fails at
construction — with the duplicate-name error, or with the ordering error
when that fires first. -/
theorem c8_tool_dedupes_prompt_rejects :
    (∀ ps : List ServiceParam,
        (∃ l, dynamicToolSignature ps = Except.ok l)
        ∨ dynamicToolSignature ps
            = Except.error "non-default argument follows default argument")
    ∧ (∀ ps : List ServiceParam,
        dynamicToolSignature ps ≠ Except.error "duplicate parameter name")
    ∧ (∀ ps : List ServiceParam, ¬ (ps.map (fun p => p.name)).Nodup →
        ∃ msg, dynamicPromptSignature ps = Except.error msg) := by
  have htool : ∀ ps : List ServiceParam,
      (∃ l, dynamicToolSignature ps = Except.ok l)
      ∨ dynamicToolSignature ps
          = Except.error "non-default argument follows default argument" := by
    intro ps
    have hg := toolParamsDict_good ps [] (by simp) (by simp)
    have hnd : (((toolParamsDict ps).map Prod.snd).map PyParam.name).Nodup := by
      rw [values_names_eq_keys (toolParamsDict ps) hg.1]
      exact hg.2
    rcases signatureScan_nodup ((toolParamsDict ps).map Prod.snd) [] false
        (by simp) hnd with h | h
    · left
      refine ⟨(toolParamsDict ps).map Prod.snd, ?_⟩
      unfold dynamicToolSignature mkSignature
      rw [h]
    · right
      unfold dynamicToolSignature mkSignature
      rw [h]
  refine ⟨htool, ?_, ?_⟩
  · intro ps hc
    rcases htool ps with ⟨l, hl⟩ | h
    · rw [hl] at hc
      exact absurd hc (by simp)
    · rw [h] at hc
      have : ("non-default argument follows default argument" : String)
          = "duplicate parameter name" := by injection hc
      exact absurd this (by decide)
  · intro ps hnd
    unfold dynamicPromptSignature mkSignature
    cases hscan : signatureScan (ps.map promptParamOf) [] false with
    | ok u =>
      exfalso
      cases u
      have h2 := (signatureScan_ok_nodup (ps.map promptParamOf) [] false hscan).1
      rw [List.map_map] at h2
      exact hnd h2
    | error msg => exact ⟨msg, rfl⟩

/-- C8 witness: a parameter list repeating the name y is rejected by the
prompt builder's signature constructor. -/
theorem c8_prompt_duplicate_witness :
    ∃ msg, dynamicPromptSignature
      [{ name := "y", type := "string", required := true },
       { name := "y", type := "boolean", required := true }]
      = Except.error msg :=
  c8_tool_dedupes_prompt_rejects.2.2
    [{ name := "y", type := "string", required := true },
     { name := "y", type := "boolean", required := true }] (by decide)

/-- C8 counterexample: two ServiceParams sharing the name x. The tool
builder constructs a signature with a single deduplicated parameter — the
later declaration's typing wins — instead of rejecting the list. -/
theorem c8_tool_duplicate_deduped_counterexample :
    dynamicToolSignature
      [{ name := "x", type := "string", required := true },
       { name := "x", type := "integer", required := false }]
      = Except.ok [{ name := "x", pyType := "Optional[int]", optionalDefault := true }] := by
  rfl

end UXMPC
